import Mathlib

/-!
# Verification of classy_blocks mesh-assembly core

Shallow embedding of the classy_blocks data model and operations:
block edge bookkeeping (`src/classy_blocks/data/block_data.py`),
edge specifications and their geometric transforms
(`src/classy_blocks/data/edges.py`), and — modelled from the spec where the
corresponding modules are not part of the provided sources — the edge
resolver (`is_valid`), the vertex deduplication list, and interpolated-curve
length queries.

Rationals model exact mesh coordinates where the claims are decidable;
reals model the geometry that genuinely needs norms and normalization.
-/

namespace ClassyBlocks

/-- A 3-component coordinate over the rationals (the mesh coordinates the
decidable claims need; `constants.DTYPE` is a floating-point coordinate in the
source, modelled exactly). -/
structure V3Q where
  x : ℚ
  y : ℚ
  z : ℚ
deriving DecidableEq, Repr

/-- The global coincidence tolerance ε (`constants.tol`, default 1e-7). -/
def tol : ℚ := 1 / 10 ^ 7

/-! ## Block data (`data/block_data.py`)

`BlockData.add_edge` stores an edge record holding the two block-local corner
indices, the kind tag and kind-specific arguments; the arguments play no role
in `add_edge`/`get_edge` control flow and are kept opaque here. -/

/-- One stored edge specification of a block: two block-local corner indices
and the kind tag (`'arc'`, `'spline'`, ..., as passed to `add_edge`). -/
structure EdgeSpec where
  corner_1 : ℤ
  corner_2 : ℤ
  kind : String
deriving DecidableEq, Repr

/-- User-provided data for a block: the list of added edge specifications
(corner points, chops, sides and labels are not touched by the claims). -/
structure BlockData where
  edges : List EdgeSpec
deriving DecidableEq, Repr

/-- `BlockData.add_edge(corner_1, corner_2, kind, *args)`:
`assert 0 <= corner_1 < 8 and 0 <= corner_2 < 8` aborts the call with an
`AssertionError` (modelled as `Except.error`), otherwise the edge record is
appended to `self.edges`. The source places no constraint relating
`corner_1` to `corner_2`. -/
def BlockData.add_edge (b : BlockData) (corner_1 corner_2 : ℤ) (kind : String) :
    Except String BlockData :=
  if 0 ≤ corner_1 ∧ corner_1 < 8 ∧ 0 ≤ corner_2 ∧ corner_2 < 8 then
    Except.ok { b with edges := b.edges ++ [⟨corner_1, corner_2, kind⟩] }
  else
    Except.error "Use block-local indexing (0...7)"

/-- The unordered-pair test `{edge.corner_1, edge.corner_2} == {corner_1, corner_2}`
used by `BlockData.get_edge` (Python set equality of two-element sets). -/
def pairMatch (e : EdgeSpec) (corner_1 corner_2 : ℤ) : Bool :=
  ({e.corner_1, e.corner_2} : Finset ℤ) = ({corner_1, corner_2} : Finset ℤ)

/-- `BlockData.get_edge(corner_1, corner_2)`: scan `self.edges` in order,
return the first edge whose unordered corner pair equals the queried pair,
or raise `RuntimeError` (modelled as `Except.error`) if none matches. -/
def BlockData.get_edge (b : BlockData) (corner_1 corner_2 : ℤ) :
    Except String EdgeSpec :=
  match b.edges.find? (fun e => pairMatch e corner_1 corner_2) with
  | some e => Except.ok e
  | none => Except.error "Edge not found: is it defined already?"

/-! ## Edge specifications and transforms (`data/edges.py`)

Control data lives in floating-point vectors in the source; here over ℝ.
`f.unit_vector`, `f.rotate` and `f.scale` come from `classy_blocks.util.functions`,
which is not part of the provided sources; they are modelled from the spec
(see the doc comments below). -/

/-- A 3-component real vector (edge control data). -/
@[ext]
structure V3 where
  x : ℝ
  y : ℝ
  z : ℝ

instance : Add V3 := ⟨fun a b => ⟨a.x + b.x, a.y + b.y, a.z + b.z⟩⟩

instance : Sub V3 := ⟨fun a b => ⟨a.x - b.x, a.y - b.y, a.z - b.z⟩⟩

instance : SMul ℝ V3 := ⟨fun c a => ⟨c * a.x, c * a.y, c * a.z⟩⟩

instance : Zero V3 := ⟨⟨0, 0, 0⟩⟩

/-- Squared Euclidean norm of a control vector. -/
def normSq (v : V3) : ℝ := v.x ^ 2 + v.y ^ 2 + v.z ^ 2

/-- Modelled from the spec: `f.unit_vector` of `classy_blocks.util.functions`
is not in the provided sources; the spec says the axis is re-normalized to
unit length, i.e. `vector / norm(vector)` (undefined on the zero vector,
where floating point yields NaN; Lean's division convention yields `0`). -/
noncomputable def unit_vector (v : V3) : V3 :=
  (1 / Real.sqrt (normSq v)) • v

/-- Modelled from the spec: `f.scale(p, ratio, origin)` scales a point about
the given origin, `origin + ratio * (p - origin)`. -/
def scaleMap (ratio : ℝ) (origin : V3) (p : V3) : V3 :=
  origin + ratio • (p - origin)

/-- `Line`: a 'line' edge needs no parameters; it inherits
`EdgeData.transform`, which returns `self` unchanged. -/
structure Line

def Line.transform (e : Line) (f : V3 → V3) : Line := e

def Line.translate (e : Line) (displacement : V3) : Line :=
  e.transform (fun p => p + displacement)

/-- `EdgeData.rotate` applies `f.rotate(p, axis, angle, origin)` pointwise;
`f.rotate` is not in the provided sources, so the rotation point-map is
taken as a parameter (modelled from the spec: a rotation about an axis and
origin; about the coordinate origin it preserves norms). -/
def Line.rotate (e : Line) (rotMap : V3 → V3) : Line := e.transform rotMap

def Line.scale (e : Line) (ratio : ℝ) (origin : V3) : Line :=
  e.transform (scaleMap ratio origin)

/-- `Arc`: parameters for an 'arc' edge; `transform` rewrites the arc point. -/
structure Arc where
  point : V3

def Arc.transform (e : Arc) (f : V3 → V3) : Arc := ⟨f e.point⟩

def Arc.translate (e : Arc) (displacement : V3) : Arc :=
  e.transform (fun p => p + displacement)

/-- `Origin`: parameters for an 'origin' edge; `transform` rewrites the
origin point and leaves `flatness` untouched. -/
structure Origin where
  origin : V3
  flatness : ℝ

def Origin.transform (e : Origin) (f : V3 → V3) : Origin :=
  ⟨f e.origin, e.flatness⟩

/-- `Angle`: parameters for an angle-and-axis edge. The constructor stores
`unit_vector(axis)`; `transform` applies the function to the axis and
re-normalizes; the angle scalar is never touched. -/
structure Angle where
  angle : ℝ
  axis : V3

/-- `Angle.__init__(angle, axis)`: stores the angle and the normalized axis. -/
noncomputable def Angle.ofAxis (angle : ℝ) (axis : V3) : Angle :=
  ⟨angle, unit_vector axis⟩

noncomputable def Angle.transform (e : Angle) (f : V3 → V3) : Angle :=
  ⟨e.angle, unit_vector (f e.axis)⟩

noncomputable def Angle.translate (e : Angle) (displacement : V3) : Angle :=
  e.transform (fun p => p + displacement)

/-- `Angle.rotate`: `f.rotate` is not in the provided sources, so the
rotation point-map is a parameter (see `Line.rotate`). -/
noncomputable def Angle.rotate (e : Angle) (rotMap : V3 → V3) : Angle :=
  e.transform rotMap

noncomputable def Angle.scale (e : Angle) (ratio : ℝ) (origin : V3) : Angle :=
  e.transform (scaleMap ratio origin)

/-- `Spline`: parameters for a spline edge; `transform` maps the function
over the control points, preserving order. -/
structure Spline where
  points : List V3

def Spline.transform (e : Spline) (f : V3 → V3) : Spline :=
  ⟨e.points.map f⟩

/-- Input form of `Project.__init__`'s `geometry` argument:
a single identifier string or a list of identifier strings. -/
inductive GeomInput where
  | single (s : String)
  | multi (l : List String)

/-- `Project`: parameters for a 'project' edge; it stores a list of geometry
identifiers and inherits `EdgeData.transform`, which returns `self`. -/
structure Project where
  geometry : List String

/-- `Project.__init__(geometry)`: a list is stored unchanged, a single
string is wrapped into a one-element list. -/
def Project.ofGeometry : GeomInput → Project
  | .single s => ⟨[s]⟩
  | .multi l => ⟨l⟩

def Project.transform (e : Project) (f : V3 → V3) : Project := e

def Project.translate (e : Project) (displacement : V3) : Project :=
  e.transform (fun p => p + displacement)

def Project.rotate (e : Project) (rotMap : V3 → V3) : Project :=
  e.transform rotMap

def Project.scale (e : Project) (ratio : ℝ) (origin : V3) : Project :=
  e.transform (scaleMap ratio origin)

/-! ## Edge resolver (`items/edges/*`), modelled from the spec

The resolver modules (`classy_blocks.items.edges`) are not part of the
provided sources; the resolver's `is_valid` behaviour is modelled from the
spec's §4.2 contract: coincident endpoints make every kind invalid; `line`
is always invalid (nothing to emit); `arc` is valid iff its three points are
not collinear within tolerance; `origin` raises a hard error when the radius
is underdetermined (origin at the chord midpoint); `angle` requires the
angle strictly inside (0, 2π) and raises a hard error otherwise;
`spline`/`polyLine`/`project` are always valid. Hard errors are `Except.error`
(Python `AssertionError`/`ValueError`); the validity flag is the `Bool`. -/

/-- A deduplicated vertex: a point plus its stable integer index. -/
structure Vertex where
  point : V3Q
  index : ℕ
deriving DecidableEq, Repr

/-- Componentwise difference of rational points. -/
def V3Q.sub (a b : V3Q) : V3Q := ⟨a.x - b.x, a.y - b.y, a.z - b.z⟩

/-- Cross product of rational vectors. -/
def V3Q.cross (a b : V3Q) : V3Q :=
  ⟨a.y * b.z - a.z * b.y, a.z * b.x - a.x * b.z, a.x * b.y - a.y * b.x⟩

/-- Squared Euclidean norm of a rational vector. -/
def normSqQ (v : V3Q) : ℚ := v.x ^ 2 + v.y ^ 2 + v.z ^ 2

/-- Modelled from the spec: three points are collinear within tolerance when
the cross product of the two chord vectors is no larger than the tolerance
(measured by squared norm against `tol ^ 2`). -/
def collinearTol (p1 p2 p3 : V3Q) : Prop :=
  normSqQ (V3Q.cross (p2.sub p1) (p3.sub p1)) ≤ tol ^ 2

instance (p1 p2 p3 : V3Q) : Decidable (collinearTol p1 p2 p3) :=
  inferInstanceAs (Decidable (_ ≤ _))

/-- Chord midpoint of two rational points. -/
def midpointQ (a b : V3Q) : V3Q :=
  ⟨(a.x + b.x) / 2, (a.y + b.y) / 2, (a.z + b.z) / 2⟩

/-- Tolerance-aware point coincidence (spec §3: two points are coincident
iff every component differs by less than ε). -/
def coincidentQ (a b : V3Q) : Prop :=
  |a.x - b.x| < tol ∧ |a.y - b.y| < tol ∧ |a.z - b.z| < tol

instance (a b : V3Q) : Decidable (coincidentQ a b) :=
  inferInstanceAs (Decidable (_ ∧ _ ∧ _))

/-- The closed tagged union of edge specification kinds handed to the
resolver (spec §9: {Line, Arc, Origin, Angle, Spline, PolyLine, Project}). -/
inductive EdgeKind where
  | line
  | arc (point : V3Q)
  | origin (origin : V3Q) (flatness : ℚ)
  | angle (theta : ℝ) (axis : V3Q)
  | spline (points : List V3Q)
  | polyLine (points : List V3Q)
  | project (geometry : List String)

/-- Modelled from the spec: the resolved edge's `is_valid` (the resolver
items are not in the provided sources). Coincident endpoints short-circuit
to invalid for every kind; otherwise the kind decides, with hard errors for
a degenerate `origin` (radius underdetermined at the chord midpoint) and an
`angle` outside (0, 2π). -/
noncomputable def is_valid (v1 v2 : Vertex) (e : EdgeKind) : Except String Bool :=
  if v1 = v2 then Except.ok false
  else
    match e with
    | .line => Except.ok false
    | .arc p =>
        Except.ok (decide (tol ^ 2 < normSqQ (V3Q.cross (p.sub v1.point) (v2.point.sub v1.point))))
    | .origin o _ =>
        if coincidentQ o (midpointQ v1.point v2.point) then
          Except.error "radius underdetermined"
        else Except.ok true
    | .angle theta _ =>
        if 0 < theta ∧ theta < 2 * Real.pi then Except.ok true
        else Except.error "assert 0 < theta < 2*pi"
    | .spline _ => Except.ok true
    | .polyLine _ => Except.ok true
    | .project _ => Except.ok true

/-! ## Vertex list (`process/lists/vertices.py`), modelled from the spec

`VertexList.collect` is not part of the provided sources; modelled from
spec §4.4: for every corner point of every block, in input order, either
reuse the first existing coincident vertex or append a new vertex with the
next sequential index. -/

/-- `find`-style lookup: the first collected vertex coincident with `p`. -/
def findVertex (vs : List Vertex) (p : V3Q) : Option Vertex :=
  vs.find? (fun v => decide (coincidentQ v.point p))

/-- Collect a single corner point: reuse a coincident vertex's index or
append a fresh vertex indexed by the current list length. -/
def collectPoint (vs : List Vertex) (p : V3Q) : List Vertex × ℕ :=
  match findVertex vs p with
  | some v => (vs, v.index)
  | none => (vs ++ [⟨p, vs.length⟩], vs.length)

/-- Collect the corner points of one block, left to right (corners 0..7). -/
def collectBlock : List Vertex → List V3Q → List Vertex × List ℕ
  | vs, [] => (vs, [])
  | vs, p :: ps =>
      let r := collectPoint vs p
      let rest := collectBlock r.1 ps
      (rest.1, r.2 :: rest.2)

/-- `VertexList.collect`: blocks in input order, corners 0..7 within each
block; returns the vertex list and each block's assigned indices. -/
def collect : List Vertex → List (List V3Q) → List Vertex × List (List ℕ)
  | vs, [] => (vs, [])
  | vs, b :: bs =>
      let r := collectBlock vs b
      let rest := collect r.1 bs
      (rest.1, r.2 :: rest.2)

/-- First unit cube, corners in the block-local order bottom 0..3, top 4..7. -/
def unitCube1 : List V3Q :=
  [⟨0, 0, 0⟩, ⟨1, 0, 0⟩, ⟨1, 1, 0⟩, ⟨0, 1, 0⟩,
   ⟨0, 0, 1⟩, ⟨1, 0, 1⟩, ⟨1, 1, 1⟩, ⟨0, 1, 1⟩]

/-- Second unit cube, translated by one unit along x; it shares the x = 1
face (first cube's corners 1, 2, 5, 6) with the first cube. -/
def unitCube2 : List V3Q :=
  [⟨1, 0, 0⟩, ⟨2, 0, 0⟩, ⟨2, 1, 0⟩, ⟨1, 1, 0⟩,
   ⟨1, 0, 1⟩, ⟨2, 0, 1⟩, ⟨2, 1, 1⟩, ⟨1, 1, 1⟩]

/-! ## Interpolated curves (`construct/curves/interpolated.py`), modelled from the spec

The curve modules are not part of the provided sources; modelled from
spec §4.3: both variants are parametrized so that parameter `i` sits at
input point `i`. The linear variant's `get_length(a, b)` is the exact sum
of the linear segment parts spanned between the two parameters, signed by
direction; the smooth variant's is the arc-length integral of the fitted
curve's speed between the two parameters. -/

/-- Length of segment `i` (from input point `i` to input point `i+1`) of a
piecewise-linear interpolated curve with the given control points. -/
noncomputable def segLen (pts : List V3) (i : ℕ) : ℝ :=
  Real.sqrt (normSq (pts.getD (i + 1) 0 - pts.getD i 0))

/-- The parameter `t` clamped to segment `i`'s parameter range `[i, i+1]`. -/
noncomputable def clampSeg (t : ℝ) (i : ℕ) : ℝ :=
  max (min t ((i : ℝ) + 1)) (i : ℝ)

/-- Modelled from the spec: `LinearInterpolatedCurve.get_length(a, b)` — the
exact sum, over the curve's segments, of the segment length weighted by the
fraction of the segment's parameter range `[i, i+1]` spanned between the two
parameters (signed by direction). -/
noncomputable def linear_get_length (pts : List V3) (a b : ℝ) : ℝ :=
  ∑ i ∈ Finset.range (pts.length - 1),
    (clampSeg b i - clampSeg a i) * segLen pts i

/-- Modelled from the spec: `SplineInterpolatedCurve.get_length(a, b)` — the
arc length of the fitted smooth curve `γ` between the two parameters,
computed by integrating the curve's speed (numerical integration in the
source, the exact integral here). -/
noncomputable def smooth_get_length (γ : ℝ → EuclideanSpace ℝ (Fin 3)) (a b : ℝ) : ℝ :=
  ∫ t in a..b, ‖deriv γ t‖

/-! ## Lemmas about the embedded operations -/

theorem V3.add_def (a b : V3) : a + b = ⟨a.x + b.x, a.y + b.y, a.z + b.z⟩ := rfl

theorem V3.sub_def (a b : V3) : a - b = ⟨a.x - b.x, a.y - b.y, a.z - b.z⟩ := rfl

theorem V3.smul_def (c : ℝ) (a : V3) : c • a = ⟨c * a.x, c * a.y, c * a.z⟩ := rfl

theorem normSq_nonneg (v : V3) : 0 ≤ normSq v := by
  unfold normSq; positivity

theorem normSq_smul (c : ℝ) (v : V3) : normSq (c • v) = c ^ 2 * normSq v := by
  simp only [V3.smul_def, normSq]; ring

/-- Normalizing a vector of nonzero norm yields a unit vector. -/
theorem normSq_unit_vector (v : V3) (h : normSq v ≠ 0) :
    normSq (unit_vector v) = 1 := by
  unfold unit_vector
  rw [normSq_smul, div_pow, one_pow, Real.sq_sqrt (normSq_nonneg v)]
  field_simp

/-- Normalizing an already-unit vector is the identity. -/
theorem unit_vector_of_normSq_one (v : V3) (h : normSq v = 1) :
    unit_vector v = v := by
  unfold unit_vector
  rw [h, Real.sqrt_one]
  cases v
  simp [V3.smul_def]

/-- The unordered-pair test is symmetric in the queried corners. -/
theorem pairMatch_comm (e : EdgeSpec) (c1 c2 : ℤ) :
    pairMatch e c1 c2 = pairMatch e c2 c1 := by
  simp only [pairMatch, Finset.pair_comm c1 c2]

/-! ## Claim theorems -/

/-- C9: `Project.__init__` stores a single geometry-identifier string as a
one-element list and stores a list unchanged, so the stored `geometry`
attribute is always a list of identifiers. -/
theorem project_geometry_always_list (s : String) (l : List String) :
    (Project.ofGeometry (GeomInput.single s)).geometry = [s] ∧
    (Project.ofGeometry (GeomInput.multi l)).geometry = l :=
  ⟨rfl, rfl⟩

/-- C6: for `Line` and `Project` edge specifications, `transform`,
`translate`, `rotate` and `scale` all return the same logical edge with no
control data modified; in particular a `Project` edge's geometry identifier
list is never altered by any spatial transform. -/
theorem line_project_transforms_noop (l : Line) (pr : Project)
    (f rotMap : V3 → V3) (d : V3) (ratio : ℝ) (origin : V3) :
    l.transform f = l ∧ l.translate d = l ∧ l.rotate rotMap = l ∧
      l.scale ratio origin = l ∧
    pr.transform f = pr ∧ pr.translate d = pr ∧ pr.rotate rotMap = pr ∧
      pr.scale ratio origin = pr ∧
    (pr.translate d).geometry = pr.geometry ∧
      (pr.rotate rotMap).geometry = pr.geometry ∧
      (pr.scale ratio origin).geometry = pr.geometry :=
  ⟨rfl, rfl, rfl, rfl, rfl, rfl, rfl, rfl, rfl, rfl, rfl⟩

/-- C1 counterexample: the claim "add_edge raises iff a corner is out of
range [0,8) or the corners are equal" is false — `add_edge(0, 0, 'arc')`
has equal corners but is accepted and appended, because the source asserts
only the range of each corner. -/
theorem add_edge_equal_corners_claim_false :
    ¬ (∀ (b : BlockData) (c1 c2 : ℤ) (k : String),
        (∃ s, b.add_edge c1 c2 k = Except.error s) ↔
          (¬ (0 ≤ c1 ∧ c1 < 8 ∧ 0 ≤ c2 ∧ c2 < 8) ∨ c1 = c2)) := by
  intro h
  obtain ⟨s, hs⟩ := (h ⟨[]⟩ 0 0 "arc").mpr (Or.inr rfl)
  norm_num [BlockData.add_edge] at hs
  exact Except.noConfusion hs

/-- C1 (amended): `add_edge(corner_1, corner_2, kind, ...)` raises an
`AssertionError` (aborting the edge's construction, never silently
defaulting) iff `corner_1` or `corner_2` is outside the range [0,8);
otherwise — equal corners included — the edge specification is appended. -/
theorem add_edge_asserts_range (b : BlockData) (c1 c2 : ℤ) (k : String) :
    ((∃ s, b.add_edge c1 c2 k = Except.error s) ↔
      ¬ (0 ≤ c1 ∧ c1 < 8 ∧ 0 ≤ c2 ∧ c2 < 8)) ∧
    ((0 ≤ c1 ∧ c1 < 8 ∧ 0 ≤ c2 ∧ c2 < 8) →
      b.add_edge c1 c2 k = Except.ok ⟨b.edges ++ [⟨c1, c2, k⟩]⟩) := by
  unfold BlockData.add_edge
  by_cases h : 0 ≤ c1 ∧ c1 < 8 ∧ 0 ≤ c2 ∧ c2 < 8 <;> simp [h]

/-- C1 witness: in-range corners 0 and 1 are accepted and the edge is
appended to an empty block. -/
theorem add_edge_asserts_range_witness :
    (BlockData.mk []).add_edge 0 1 "arc" =
      Except.ok (BlockData.mk [⟨0, 1, "arc"⟩]) :=
  (add_edge_asserts_range ⟨[]⟩ 0 1 "arc").2 (by norm_num)

/-- C10: `get_edge(corner_1, corner_2)` treats the corner pair as unordered
(the same result either way round; it returns a stored edge matching the
two corners whenever one exists) and raises a `RuntimeError` when no edge
is defined between the two corners; it never modifies the block. -/
theorem get_edge_unordered_or_raises (b : BlockData) (c1 c2 : ℤ) :
    (b.get_edge c1 c2 = b.get_edge c2 c1) ∧
    ((∃ e ∈ b.edges, pairMatch e c1 c2) →
      ∃ e, b.get_edge c1 c2 = Except.ok e ∧ e ∈ b.edges ∧ pairMatch e c1 c2) ∧
    ((∀ e ∈ b.edges, ¬ pairMatch e c1 c2) →
      ∃ s, b.get_edge c1 c2 = Except.error s) := by
  refine ⟨?_, ?_, ?_⟩
  · unfold BlockData.get_edge
    have hfun : (fun e => pairMatch e c1 c2) = (fun e => pairMatch e c2 c1) :=
      funext fun e => pairMatch_comm e c1 c2
    rw [hfun]
  · intro hex
    unfold BlockData.get_edge
    cases hfind : b.edges.find? (fun e => pairMatch e c1 c2) with
    | none =>
        obtain ⟨e, he, hm⟩ := hex
        exact absurd hm (by simpa using List.find?_eq_none.mp hfind e he)
    | some e =>
        exact ⟨e, rfl, List.mem_of_find?_eq_some hfind,
          by simpa using List.find?_some hfind⟩
  · intro hall
    unfold BlockData.get_edge
    rw [List.find?_eq_none.mpr (by simpa using hall)]
    exact ⟨_, rfl⟩

/-- C10 witness: a block holding one edge between corners 0 and 1 answers
the reversed query (1, 0) with that stored edge. -/
theorem get_edge_unordered_or_raises_witness :
    ∃ e, (BlockData.mk [⟨0, 1, "arc"⟩]).get_edge 1 0 = Except.ok e ∧
      e ∈ (BlockData.mk [⟨0, 1, "arc"⟩]).edges ∧ pairMatch e 1 0 :=
  (get_edge_unordered_or_raises ⟨[⟨0, 1, "arc"⟩]⟩ 1 0).2.1
    ⟨⟨0, 1, "arc"⟩, by simp, by simp [pairMatch, Finset.pair_comm]⟩

/-- C2: for every edge specification kind (line, arc, origin, angle, spline,
polyline, project), if the two endpoint vertices passed to the resolver
coincide (the same deduplicated vertex), the resolved edge is invalid
(`is_valid = false`), never an error. -/
theorem coincident_endpoints_always_invalid (v : Vertex) (e : EdgeKind) :
    is_valid v v e = Except.ok false := by
  unfold is_valid
  rw [if_pos rfl]

/-- C4: for an arc edge specification with distinct endpoints, the resolved
edge is valid iff its three points (endpoint 1, arc control point,
endpoint 2) are not collinear within tolerance. -/
theorem arc_valid_iff_not_collinear (v1 v2 : Vertex) (p : V3Q) (h : v1 ≠ v2) :
    is_valid v1 v2 (EdgeKind.arc p) = Except.ok true ↔
      ¬ collinearTol v1.point p v2.point := by
  unfold is_valid
  rw [if_neg h]
  simp [collinearTol, not_le]

/-- C4 witness: endpoints (0,0,0) and (1,0,0) with control point
(1/2, 1/5, 0) — a concrete non-degenerate arc. -/
theorem arc_valid_iff_not_collinear_witness :
    is_valid ⟨⟨0, 0, 0⟩, 0⟩ ⟨⟨1, 0, 0⟩, 1⟩ (EdgeKind.arc ⟨1/2, 1/5, 0⟩) =
        Except.ok true ↔
      ¬ collinearTol ⟨0, 0, 0⟩ ⟨1/2, 1/5, 0⟩ ⟨1, 0, 0⟩ :=
  arc_valid_iff_not_collinear ⟨⟨0, 0, 0⟩, 0⟩ ⟨⟨1, 0, 0⟩, 1⟩ ⟨1/2, 1/5, 0⟩
    (by simp)

/-- C7: resolving an angle edge (distinct endpoints) requires the angle
scalar strictly inside (0, 2π): outside, it raises a hard error rather than
producing a resolved edge or a mere invalid flag, and an angle of exactly 0
does so in particular. -/
theorem angle_zero_hard_error (v1 v2 : Vertex) (theta : ℝ) (ax : V3Q)
    (h : v1 ≠ v2) :
    ((∃ s, is_valid v1 v2 (EdgeKind.angle theta ax) = Except.error s) ↔
      ¬ (0 < theta ∧ theta < 2 * Real.pi)) ∧
    is_valid v1 v2 (EdgeKind.angle 0 ax) =
      Except.error "assert 0 < theta < 2*pi" := by
  constructor
  · by_cases hθ : 0 < theta ∧ theta < 2 * Real.pi <;> simp [is_valid, h, hθ]
  · simp [is_valid, h]

/-- C7 witness: distinct concrete endpoints; the zero angle errors, and the
error criterion is exactly the (0, 2π) range check. -/
theorem angle_zero_hard_error_witness :
    ((∃ s, is_valid ⟨⟨0, 0, 0⟩, 0⟩ ⟨⟨1, 0, 0⟩, 1⟩ (EdgeKind.angle 0 ⟨0, 0, 1⟩) =
        Except.error s) ↔ ¬ ((0:ℝ) < 0 ∧ (0:ℝ) < 2 * Real.pi)) ∧
    is_valid ⟨⟨0, 0, 0⟩, 0⟩ ⟨⟨1, 0, 0⟩, 1⟩ (EdgeKind.angle 0 ⟨0, 0, 1⟩) =
      Except.error "assert 0 < theta < 2*pi" :=
  angle_zero_hard_error ⟨⟨0, 0, 0⟩, 0⟩ ⟨⟨1, 0, 0⟩, 1⟩ 0 ⟨0, 0, 1⟩ (by simp)

/-- C5 counterexample: the claim "the stored axis is a unit vector after
every translate/rotate/scale" fails — translating the angle edge with axis
(0,0,1) by the displacement (0,0,-1) sends the axis to the zero vector,
whose normalization is not unit length (NaN in the floating-point source,
the zero vector under Lean's division convention). -/
theorem angle_axis_unit_claim_false :
    ¬ normSq (((Angle.ofAxis 1 ⟨0, 0, 1⟩).translate ⟨0, 0, -1⟩).axis) = 1 := by
  have hax : (Angle.ofAxis 1 ⟨0, 0, 1⟩).axis = ⟨0, 0, 1⟩ :=
    unit_vector_of_normSq_one _ (by norm_num [normSq])
  have hsum : ((⟨0, 0, 1⟩ : V3) + ⟨0, 0, -1⟩) = (⟨0, 0, 0⟩ : V3) := by
    rw [V3.add_def]; norm_num
  have : (((Angle.ofAxis 1 ⟨0, 0, 1⟩).translate ⟨0, 0, -1⟩).axis) =
      unit_vector ⟨0, 0, 0⟩ := by
    show unit_vector ((Angle.ofAxis 1 ⟨0, 0, 1⟩).axis + ⟨0, 0, -1⟩) = _
    rw [hax, hsum]
  rw [this]
  unfold unit_vector
  rw [V3.smul_def]
  norm_num [normSq]

/-- C5 (amended): for every Angle edge specification and every
translate/rotate/scale, the angle scalar is unchanged; the stored axis is a
unit vector after the transform provided the transformed axis is nonzero;
and under a rotation that preserves norms (a rotation about the coordinate
origin), the stored unit axis is mapped exactly by that rotation. -/
theorem angle_transform_amended (a : ℝ) (ax d : V3) (rotMap : V3 → V3)
    (ratio : ℝ) (origin : V3) :
    ((Angle.ofAxis a ax).translate d).angle = a ∧
    ((Angle.ofAxis a ax).rotate rotMap).angle = a ∧
    ((Angle.ofAxis a ax).scale ratio origin).angle = a ∧
    (normSq ((Angle.ofAxis a ax).axis + d) ≠ 0 →
      normSq (((Angle.ofAxis a ax).translate d).axis) = 1) ∧
    (normSq (rotMap (Angle.ofAxis a ax).axis) ≠ 0 →
      normSq (((Angle.ofAxis a ax).rotate rotMap).axis) = 1) ∧
    (normSq (scaleMap ratio origin (Angle.ofAxis a ax).axis) ≠ 0 →
      normSq (((Angle.ofAxis a ax).scale ratio origin).axis) = 1) ∧
    (normSq ax ≠ 0 → (∀ v, normSq (rotMap v) = normSq v) →
      ((Angle.ofAxis a ax).rotate rotMap).axis =
        rotMap ((Angle.ofAxis a ax).axis)) := by
  refine ⟨rfl, rfl, rfl, fun h => normSq_unit_vector _ h,
    fun h => normSq_unit_vector _ h, fun h => normSq_unit_vector _ h,
    fun hax hpres => ?_⟩
  have h1 : normSq ((Angle.ofAxis a ax).axis) = 1 := normSq_unit_vector ax hax
  have h2 : normSq (rotMap ((Angle.ofAxis a ax).axis)) = 1 := by
    rw [hpres, h1]
  exact unit_vector_of_normSq_one _ h2

/-- C5 witness: the concrete angle edge with axis (0,0,1): translating by
(1,0,0) keeps a unit axis, and the 90° rotation about the x-axis
(x,y,z) ↦ (x,-z,y) maps the stored axis exactly. -/
theorem angle_transform_amended_witness :
    normSq (((Angle.ofAxis 1 ⟨0, 0, 1⟩).translate ⟨1, 0, 0⟩).axis) = 1 ∧
    ((Angle.ofAxis 1 ⟨0, 0, 1⟩).rotate (fun v => ⟨v.x, -v.z, v.y⟩)).axis =
      (fun v : V3 => (⟨v.x, -v.z, v.y⟩ : V3)) ((Angle.ofAxis 1 ⟨0, 0, 1⟩).axis) := by
  have hax : (Angle.ofAxis 1 ⟨0, 0, 1⟩).axis = ⟨0, 0, 1⟩ :=
    unit_vector_of_normSq_one _ (by norm_num [normSq])
  refine ⟨(angle_transform_amended 1 ⟨0, 0, 1⟩ ⟨1, 0, 0⟩
      (fun v => ⟨v.x, -v.z, v.y⟩) 2 ⟨0, 0, 0⟩).2.2.2.1 ?_,
    (angle_transform_amended 1 ⟨0, 0, 1⟩ ⟨1, 0, 0⟩
      (fun v => ⟨v.x, -v.z, v.y⟩) 2 ⟨0, 0, 0⟩).2.2.2.2.2.2 (by norm_num [normSq])
      (fun v => by simp only [normSq]; ring)⟩
  rw [hax, V3.add_def]
  norm_num [normSq]

set_option maxRecDepth 4000 in
/-- C3: collecting two unit-cube blocks that share one face into an empty
vertex list yields exactly 12 vertices; traversal is blocks in input order
and corners 0..7 within each block, so the first block receives indices
[0..7] and the second reuses the shared face's indices 1, 2, 5, 6;
collecting the same blocks again over the resulting list reproduces the
same vertex list and the same index assignment. -/
theorem two_block_collect_twelve_vertices :
    (collect [] [unitCube1, unitCube2]).1.length = 12 ∧
    (collect [] [unitCube1, unitCube2]).2 =
      [[0, 1, 2, 3, 4, 5, 6, 7], [1, 8, 9, 2, 5, 10, 11, 6]] ∧
    collect (collect [] [unitCube1, unitCube2]).1 [unitCube1, unitCube2] =
      collect [] [unitCube1, unitCube2] := by
  refine ⟨?_, ?_, ?_⟩ <;>
  norm_num [collect, collectBlock, collectPoint, findVertex, coincidentQ,
    unitCube1, unitCube2, tol, List.find?]

/-- C8: for interpolated curves (linear and smooth variant), `get_length` is
additive over adjacent parameter ranges a ≤ b ≤ c and monotonic in its
parameter (for the smooth variant, under integrability of the fitted
curve's speed over the ranges involved). -/
theorem get_length_additive_monotone (pts : List V3)
    (γ : ℝ → EuclideanSpace ℝ (Fin 3)) (a b c : ℝ)
    (hab : a ≤ b) (hbc : b ≤ c)
    (h1 : IntervalIntegrable (fun t => ‖deriv γ t‖) MeasureTheory.volume a b)
    (h2 : IntervalIntegrable (fun t => ‖deriv γ t‖) MeasureTheory.volume b c) :
    linear_get_length pts a c =
        linear_get_length pts a b + linear_get_length pts b c ∧
    linear_get_length pts a b ≤ linear_get_length pts a c ∧
    smooth_get_length γ a c =
        smooth_get_length γ a b + smooth_get_length γ b c ∧
    smooth_get_length γ a b ≤ smooth_get_length γ a c := by
  have hadd : smooth_get_length γ a c =
      smooth_get_length γ a b + smooth_get_length γ b c :=
    (intervalIntegral.integral_add_adjacent_intervals h1 h2).symm
  have hseg : ∀ i : ℕ, 0 ≤ segLen pts i := fun i => Real.sqrt_nonneg _
  refine ⟨?_, ?_, hadd, ?_⟩
  · unfold linear_get_length
    rw [← Finset.sum_add_distrib]
    exact Finset.sum_congr rfl fun i _ => by ring
  · unfold linear_get_length
    refine Finset.sum_le_sum fun i _ => ?_
    have hcl : clampSeg b i ≤ clampSeg c i :=
      max_le_max (min_le_min hbc le_rfl) le_rfl
    exact mul_le_mul_of_nonneg_right (sub_le_sub_right hcl _) (hseg i)
  · have hnn : 0 ≤ smooth_get_length γ b c :=
      intervalIntegral.integral_nonneg hbc (fun u _ => norm_nonneg _)
    linarith [hadd]

/-- C8 witness: the two-point linear curve from (0,0,0) to (1,0,0) and the
constant smooth curve, over parameters 0 ≤ 1 ≤ 2. -/
theorem get_length_additive_monotone_witness :
    linear_get_length [⟨0, 0, 0⟩, ⟨1, 0, 0⟩] 0 2 =
        linear_get_length [⟨0, 0, 0⟩, ⟨1, 0, 0⟩] 0 1 +
          linear_get_length [⟨0, 0, 0⟩, ⟨1, 0, 0⟩] 1 2 ∧
    linear_get_length [⟨0, 0, 0⟩, ⟨1, 0, 0⟩] 0 1 ≤
        linear_get_length [⟨0, 0, 0⟩, ⟨1, 0, 0⟩] 0 2 ∧
    smooth_get_length (fun _ => 0) 0 2 =
        smooth_get_length (fun _ => 0) 0 1 +
          smooth_get_length (fun _ => 0) 1 2 ∧
    smooth_get_length (fun _ => 0) 0 1 ≤
        smooth_get_length (fun _ => 0) 0 2 := by
  have hker : (fun t : ℝ =>
      ‖deriv (fun _ : ℝ => (0 : EuclideanSpace ℝ (Fin 3))) t‖) =
        fun _ : ℝ => (0 : ℝ) := by
    funext t
    simp
  exact get_length_additive_monotone [⟨0, 0, 0⟩, ⟨1, 0, 0⟩] (fun _ => 0) 0 1 2
    (by norm_num) (by norm_num)
    (by rw [hker]; exact intervalIntegrable_const)
    (by rw [hker]; exact intervalIntegrable_const)

end ClassyBlocks
